import Mathlib

/-!
A verification development for the data-loading routines of `loadData.py`
(repository `glitch`): the frequency-table loader `loadFreq` and the
fit-bundle loader `loadFit`.

Modelling conventions
- Numeric file contents are idealized as rationals (`ℚ`); float NaN/inf do
  not arise because the degenerate library calls that would produce them are
  modelled as explicit errors, following the behaviour of the underlying
  numpy routines (documented at each definition).
- `loadFreq` takes the already-parsed numeric table (the result of
  `np.genfromtxt(filename, dtype=float, comments='#')`) as a list of
  4-column rows.  The one load-bearing shape fact of `genfromtxt` is kept:
  a file with fewer than two data rows parses to a 1-D array, on which the
  2-D index `freq[:, 0]` raises `IndexError`.
- `loadFit` takes the flattened HDF5 container as an association list from
  key paths ("header/method", ...) to values of an arbitrary type `α`
  (the code trusts the stored types, so values are opaque).  `h5py`'s
  `data['k'][()]` on a missing key raises `KeyError`; the `with` block is
  modelled by an explicit event trace (open read-only / key reads / close).
-/

/-- One parsed row of the frequency file: harmonic degree `l`, radial order
`n`, frequency `v` (muHz) and uncertainty `err` (muHz), all read as floats
by `np.genfromtxt` and idealized here as rationals. -/
structure Row where
  l : ℚ
  n : ℚ
  v : ℚ
  err : ℚ
  deriving DecidableEq, Repr

/-- `np.rint`: round to nearest integer, ties to even (IEEE
round-half-to-even, the mode `np.rint` documents). -/
def rint (q : ℚ) : ℤ :=
  if q - ⌊q⌋ < 1/2 then ⌊q⌋
  else if 1/2 < q - ⌊q⌋ then ⌊q⌋ + 1
  else if ⌊q⌋ % 2 = 0 then ⌊q⌋ else ⌊q⌋ + 1

/-- Dot product of two equal-length numeric vectors. -/
def dot : List ℚ → List ℚ → ℚ
  | x :: xs, y :: ys => x * y + dot xs ys
  | _, _ => 0

/-- The ordinary-least-squares denominator `n·Σx² − (Σx)²` of a degree-1
polynomial fit; it is zero exactly when all abscissae coincide. -/
def olsDen (xs : List ℚ) : ℚ :=
  (xs.length : ℚ) * dot xs xs - xs.sum * xs.sum

/-- The ordinary-least-squares slope `(n·Σxy − Σx·Σy) / (n·Σx² − (Σx)²)`
of a degree-1 polynomial fit, the unique solution of the normal equations
when `olsDen xs ≠ 0`. -/
def olsSlope (xs ys : List ℚ) : ℚ :=
  ((xs.length : ℚ) * dot xs ys - xs.sum * ys.sum) / olsDen xs

/-- The numpy exceptions `loadFreq` can surface:
`indexError` — 2-D indexing of the 1-D array `genfromtxt` returns for a
file with fewer than two data rows;
`typeError` — `np.polyfit` on an empty abscissa vector
("expected non-empty vector for x");
`linAlgError` — `lstsq`'s SVD on the NaN column that `np.polyfit`'s
column scaling produces when every abscissa is zero. -/
inductive NpError where
  | indexError : NpError
  | typeError : NpError
  | linAlgError : NpError
  deriving DecidableEq, Repr

/-- `np.polyfit(x, y, 1)` restricted to its slope coefficient.
Source behaviour (numpy `polyfit`):
- empty `x` raises `TypeError`;
- full rank (two distinct abscissae): the unique least-squares slope;
- rank deficient (all abscissae equal to `x0 ≠ 0`): `lstsq` returns the
  minimum-norm solution in `polyfit`'s column-scaled basis, whose slope is
  `Σy / (2·x0·m)`; only a `RankWarning` is issued, no exception;
- all abscissae zero: the column scale is zero, `0/0` makes the scaled
  Vandermonde column NaN and the SVD fails (`LinAlgError`). -/
def polyfit1 (xs ys : List ℚ) : Except NpError ℚ :=
  match xs with
  | [] => Except.error NpError.typeError
  | x0 :: rest =>
    if rest.all fun x => x = x0 then
      if x0 = 0 then Except.error NpError.linAlgError
      else Except.ok (ys.sum / (2 * x0 * ((rest.length : ℚ) + 1)))
    else Except.ok (olsSlope xs ys)

/-- The rows `loadFreq` retains: the source's reassignment
`freq = freq[freq[:, 0] < (num_of_l - 0.5), :]`. -/
def retained (table : List Row) (num_of_l : ℕ) : List Row :=
  table.filter fun r => r.l < (num_of_l : ℚ) - 1/2

/-- The radial rows the large-separation fit uses: retained rows of degree
below 0.5, i.e. `freq[freq[:, 0] < 0.5, :]` after the degree filter. -/
def radial (table : List Row) (num_of_l : ℕ) : List Row :=
  (retained table num_of_l).filter fun r => r.l < 1/2

/-- `loadFreq` of `loadData.py`, over the parsed numeric table.
Line by line:
- `freq = np.genfromtxt(...)`: the input `table`; a table of fewer than two
  data rows parses to a 1-D array, so the next line's 2-D index `freq[:, 0]`
  raises `IndexError`;
- `freq = freq[freq[:, 0] < (num_of_l - 0.5), :]`: `retained`;
- `num_of_mode = freq.shape[0]`;
- `num_of_n[i] = len(freq[np.rint(freq[:, 0]) == i, 0])` for
  `i in range(num_of_l)`;
- `coefs = np.polyfit(freq[freq[:, 0] < 0.5, 1], freq[freq[:, 0] < 0.5, 2], 1)`
  over the `radial` rows, and `delta_nu = coefs[0]`. -/
def loadFreq (table : List Row) (num_of_l : ℕ) :
    Except NpError (List Row × ℕ × List ℕ × ℚ) :=
  if table.length ≤ 1 then Except.error NpError.indexError
  else
    match polyfit1 ((radial table num_of_l).map Row.n)
        ((radial table num_of_l).map Row.v) with
    | Except.error e => Except.error e
    | Except.ok slope =>
        Except.ok
          (retained table num_of_l,
           (retained table num_of_l).length,
           (List.range num_of_l).map fun (i : ℕ) =>
             ((retained table num_of_l).filter
                 fun r => rint r.l = (i : ℤ)).length,
           slope)

/-- The three-mode sample file of the specification's scenario:
rows `[0,0,1000,0.1]`, `[0,1,1100,0.1]`, `[1,0,1050,0.1]`. -/
def tblScenario : List Row :=
  [⟨0, 0, 1000, 1/10⟩, ⟨0, 1, 1100, 1/10⟩, ⟨1, 0, 1050, 1/10⟩]

/-- C9: a frequency file with exactly one data row parses to a 1-D array,
so the 2-D row filter `freq[:, 0]` raises `IndexError` instead of
returning a result, for every row content and every `num_of_l`. -/
theorem loadFreq_single_row_index_error (row : Row) (num_of_l : ℕ) :
    loadFreq [row] num_of_l = Except.error NpError.indexError := rfl

/-- C1: whenever `loadFreq` returns, the returned table is exactly the
filter of the input by degree `< num_of_l − 0.5` (so every returned row
has degree below the threshold, and no row with degree `≥ num_of_l − 0.5`
appears), and the returned `num_of_mode` is the number of retained rows. -/
theorem loadFreq_retains_below_threshold (table : List Row) (num_of_l : ℕ)
    (r : List Row × ℕ × List ℕ × ℚ)
    (h : loadFreq table num_of_l = Except.ok r) :
    r.1 = table.filter (fun row => row.l < (num_of_l : ℚ) - 1/2) ∧
    r.2.1 = (table.filter (fun row => row.l < (num_of_l : ℚ) - 1/2)).length ∧
    (∀ row ∈ r.1, row.l < (num_of_l : ℚ) - 1/2) := by
  unfold loadFreq at h
  split at h
  · exact absurd h (by simp)
  · split at h
    · exact absurd h (by simp)
    · rename_i slope heq
      obtain rfl := (Except.ok.injEq _ _).mp h
      refine ⟨rfl, rfl, ?_⟩
      intro row hrow
      have hrow2 : row ∈ table.filter
          (fun t => decide (t.l < (num_of_l : ℚ) - 1/2)) := hrow
      simpa using List.of_mem_filter hrow2

/-- Evaluation of C1 on the specification's three-row scenario with
`num_of_l = 3`: all three rows are retained and `num_of_mode = 3`. -/
theorem loadFreq_retains_below_threshold_w :
    (tblScenario, 3, [2, 1, 0], (100 : ℚ)).1 =
      tblScenario.filter (fun row => row.l < (3 : ℚ) - 1/2) ∧
    (tblScenario, 3, [2, 1, 0], (100 : ℚ)).2.1 =
      (tblScenario.filter (fun row => row.l < (3 : ℚ) - 1/2)).length ∧
    (∀ row ∈ (tblScenario, 3, [2, 1, 0], (100 : ℚ)).1,
      row.l < (3 : ℚ) - 1/2) :=
  loadFreq_retains_below_threshold tblScenario 3
    (tblScenario, 3, [2, 1, 0], (100 : ℚ))
    (by unfold loadFreq radial retained
        norm_num [polyfit1, tblScenario, olsSlope, olsDen, dot, rint,
          List.filter, List.range_succ])

/-- C5: whenever `loadFreq` returns, the per-degree counts array has, at
each index `i` of `0..num_of_l−1`, the number of retained rows whose degree
column rounded to the nearest integer (ties to even, `np.rint`) equals `i`. -/
theorem loadFreq_per_degree_counts (table : List Row) (num_of_l : ℕ)
    (r : List Row × ℕ × List ℕ × ℚ)
    (h : loadFreq table num_of_l = Except.ok r) :
    r.2.2.1 = (List.range num_of_l).map fun (i : ℕ) =>
      (r.1.filter fun row => rint row.l = (i : ℤ)).length := by
  unfold loadFreq at h
  split at h
  · exact absurd h (by simp)
  · split at h
    · exact absurd h (by simp)
    · obtain rfl := (Except.ok.injEq _ _).mp h
      rfl

/-- The specification's counting example: 5 rows of degree 0, 3 rows of
degree 1, none of degree 2. -/
def tbl53 : List Row :=
  [⟨0, 0, 1000, 1/10⟩, ⟨0, 1, 1100, 1/10⟩, ⟨0, 2, 1200, 1/10⟩,
   ⟨0, 3, 1300, 1/10⟩, ⟨0, 4, 1400, 1/10⟩,
   ⟨1, 0, 1050, 1/10⟩, ⟨1, 1, 1150, 1/10⟩, ⟨1, 2, 1250, 1/10⟩]

/-- Evaluation of C5 on the 5/3/0 example with `num_of_l = 3`: the counts
are `[5, 3, 0]` (and the mode count of this load is 8). -/
theorem loadFreq_per_degree_counts_w :
    ([5, 3, 0] : List ℕ) = (List.range 3).map fun (i : ℕ) =>
      (tbl53.filter fun row => rint row.l = (i : ℤ)).length :=
  loadFreq_per_degree_counts tbl53 3 (tbl53, 8, [5, 3, 0], (100 : ℚ))
    (by unfold loadFreq radial retained
        norm_num [polyfit1, tbl53, olsSlope, olsDen, dot, rint,
          List.filter, List.range_succ])

/-- Two parsed rows of which exactly one is radial (degree 0, order 10):
input for the degenerate single-point fit. -/
def tblOneRadial : List Row := [⟨0, 10, 1500, 1/10⟩, ⟨1, 10, 1550, 1/10⟩]

/-- C3 (counterexample): on a well-formed two-row file whose retained table
has exactly one radial row (degree 0, order 10, frequency 1500), `loadFreq`
with `num_of_l = 1` returns successfully with the finite, plausible slope
`delta_nu = 75` — numpy's rank-deficient minimum-norm solution, for which
only a `RankWarning` is emitted — contradicting the claim that fewer than
two radial rows always produce a caller-visible error or NaN. -/
theorem loadFreq_one_radial_plausible_cex :
    loadFreq tblOneRadial 1 =
      Except.ok ([⟨0, 10, 1500, 1/10⟩], 1, [1], (75 : ℚ)) := by
  unfold loadFreq radial retained
  norm_num [polyfit1, tblOneRadial, rint, List.filter, List.range_succ]

/-- C3 (amended): on a table of at least two parsed rows, zero radial rows
make `loadFreq` fail with `np.polyfit`'s `TypeError`; exactly one radial
row of order 0 makes the fit fail (`LinAlgError`); but exactly one radial
row of nonzero order `n` makes `loadFreq` return successfully with the
finite minimum-norm slope `v / (2·n)` — a plausible numeric value, not a
caller-visible error. -/
theorem loadFreq_degenerate_radial_fit (table : List Row) (num_of_l : ℕ)
    (h2 : 2 ≤ table.length) :
    (radial table num_of_l = [] →
       loadFreq table num_of_l = Except.error NpError.typeError) ∧
    (∀ row : Row, radial table num_of_l = [row] → row.n = 0 →
       loadFreq table num_of_l = Except.error NpError.linAlgError) ∧
    (∀ row : Row, radial table num_of_l = [row] → row.n ≠ 0 →
       loadFreq table num_of_l =
         Except.ok (retained table num_of_l, (retained table num_of_l).length,
           (List.range num_of_l).map fun (i : ℕ) =>
             ((retained table num_of_l).filter
                 fun r => rint r.l = (i : ℤ)).length,
           row.v / (2 * row.n))) := by
  have hif : ¬ table.length ≤ 1 := by omega
  refine ⟨?_, ?_, ?_⟩
  · intro hrad
    unfold loadFreq
    rw [if_neg hif, hrad]
    rfl
  · intro row hrad hn
    unfold loadFreq
    rw [if_neg hif, hrad]
    simp [polyfit1, hn]
  · intro row hrad hn
    unfold loadFreq
    rw [if_neg hif, hrad]
    simp [polyfit1, hn]

/-- Evaluation of the amended C3 at the concrete two-row file
`tblOneRadial` with `num_of_l = 1`. -/
theorem loadFreq_degenerate_radial_fit_w :
    (radial tblOneRadial 1 = [] →
       loadFreq tblOneRadial 1 = Except.error NpError.typeError) ∧
    (∀ row : Row, radial tblOneRadial 1 = [row] → row.n = 0 →
       loadFreq tblOneRadial 1 = Except.error NpError.linAlgError) ∧
    (∀ row : Row, radial tblOneRadial 1 = [row] → row.n ≠ 0 →
       loadFreq tblOneRadial 1 =
         Except.ok (retained tblOneRadial 1, (retained tblOneRadial 1).length,
           (List.range 1).map fun (i : ℕ) =>
             ((retained tblOneRadial 1).filter
                 fun r => rint r.l = (i : ℤ)).length,
           row.v / (2 * row.n))) :=
  loadFreq_degenerate_radial_fit tblOneRadial 1 (by norm_num [tblOneRadial])

theorem dot_map_affine (xs : List ℚ) (a b : ℚ) :
    dot xs (xs.map fun x => a * x + b) = a * dot xs xs + b * xs.sum := by
  induction xs with
  | nil => simp [dot]
  | cons x xs ih =>
    simp only [List.map_cons, dot, List.sum_cons, ih]
    ring

theorem sum_map_affine (xs : List ℚ) (a b : ℚ) :
    (xs.map fun x => a * x + b).sum = a * xs.sum + b * xs.length := by
  induction xs with
  | nil => simp
  | cons x xs ih =>
    simp only [List.map_cons, List.sum_cons, ih, List.length_cons]
    push_cast
    ring

theorem sum_sq_dev (x : ℚ) (xs : List ℚ) :
    (xs.map fun t => (x - t) ^ 2).sum
      = (xs.length : ℚ) * x ^ 2 - 2 * x * xs.sum + dot xs xs := by
  induction xs with
  | nil => simp [dot]
  | cons t xs ih =>
    simp only [List.map_cons, List.sum_cons, ih, dot, List.length_cons]
    push_cast
    ring

theorem olsDen_cons (x : ℚ) (xs : List ℚ) :
    olsDen (x :: xs) = olsDen xs + (xs.map fun t => (x - t) ^ 2).sum := by
  simp only [olsDen, dot, List.length_cons, List.sum_cons, sum_sq_dev]
  push_cast
  ring

theorem olsDen_nonneg (xs : List ℚ) : 0 ≤ olsDen xs := by
  induction xs with
  | nil => simp [olsDen, dot]
  | cons x xs ih =>
    rw [olsDen_cons]
    have h : 0 ≤ (xs.map fun t => (x - t) ^ 2).sum := by
      apply List.sum_nonneg
      intro q hq
      obtain ⟨t, -, rfl⟩ := List.mem_map.mp hq
      positivity
    linarith

theorem olsDen_pos (xs : List ℚ) (x y : ℚ) (hx : x ∈ xs) (hy : y ∈ xs)
    (hxy : x ≠ y) : 0 < olsDen xs := by
  induction xs with
  | nil => cases hx
  | cons z zs ih =>
    rw [olsDen_cons]
    have hnn : 0 ≤ olsDen zs := olsDen_nonneg zs
    have hsum_nn : ∀ q ∈ zs.map fun t => (z - t) ^ 2, 0 ≤ q := by
      intro q hq
      obtain ⟨t, -, rfl⟩ := List.mem_map.mp hq
      positivity
    have hsum0 : 0 ≤ (zs.map fun t => (z - t) ^ 2).sum := List.sum_nonneg hsum_nn
    rcases List.mem_cons.mp hx with rfl | hx2
    · rcases List.mem_cons.mp hy with rfl | hy2
      · exact absurd rfl hxy
      · have hmem : (x - y) ^ 2 ∈ zs.map fun t => (x - t) ^ 2 :=
          List.mem_map.mpr ⟨y, hy2, rfl⟩
        have hle := List.single_le_sum hsum_nn _ hmem
        have hpos : 0 < (x - y) ^ 2 :=
          pow_two_pos_of_ne_zero (sub_ne_zero.mpr hxy)
        linarith
    · rcases List.mem_cons.mp hy with rfl | hy2
      · have hmem : (y - x) ^ 2 ∈ zs.map fun t => (y - t) ^ 2 :=
          List.mem_map.mpr ⟨x, hx2, rfl⟩
        have hle := List.single_le_sum hsum_nn _ hmem
        have hpos : 0 < (y - x) ^ 2 :=
          pow_two_pos_of_ne_zero (sub_ne_zero.mpr (Ne.symm hxy))
        linarith
      · have := ih hx2 hy2
        linarith

theorem olsDen_const (c : ℚ) (xs : List ℚ) (h : ∀ x ∈ xs, x = c) :
    olsDen xs = 0 := by
  induction xs with
  | nil => simp [olsDen, dot]
  | cons x xs ih =>
    have hx : x = c := h x (List.mem_cons_self x xs)
    have hxs : ∀ y ∈ xs, y = c := fun y hy => h y (List.mem_cons_of_mem _ hy)
    rw [olsDen_cons, ih hxs]
    have hz : (xs.map fun t => (x - t) ^ 2).sum = 0 := by
      apply List.sum_eq_zero
      intro q hq
      obtain ⟨t, ht, rfl⟩ := List.mem_map.mp hq
      rw [hx, hxs t ht]
      ring
    rw [hz]
    ring

theorem olsSlope_affine (xs : List ℚ) (a b : ℚ) (h : olsDen xs ≠ 0) :
    olsSlope xs (xs.map fun x => a * x + b) = a := by
  unfold olsSlope
  rw [dot_map_affine, sum_map_affine, div_eq_iff h]
  unfold olsDen
  ring

theorem polyfit1_full_rank (xs ys : List ℚ) (h : 0 < olsDen xs) :
    polyfit1 xs ys = Except.ok (olsSlope xs ys) := by
  cases xs with
  | nil => exact absurd h (by simp [olsDen, dot])
  | cons x0 rest =>
    by_cases hcond : (rest.all fun x => decide (x = x0)) = true
    · exfalso
      have hc : ∀ x ∈ x0 :: rest, x = x0 := by
        intro x hx
        rcases List.mem_cons.mp hx with rfl | hx2
        · rfl
        · simpa using List.all_eq_true.mp hcond x hx2
      rw [olsDen_const x0 _ hc] at h
      exact lt_irrefl 0 h
    · simp only [polyfit1]
      rw [if_neg hcond]

/-- C4: on a table of at least two rows, all of degree 0 and with
frequencies following the exact linear law `v = a·n + b` (with at least two
distinct orders so the fit is full rank), and any `num_of_l ≥ 1`,
`loadFreq` returns `delta_nu = a` exactly: the slope of the ordinary
least-squares line through the (order, frequency) pairs of the retained
degree-0 rows. -/
theorem loadFreq_delta_nu_linear_law (table : List Row) (num_of_l : ℕ)
    (a b : ℚ) (hlen : 2 ≤ table.length) (hl : 1 ≤ num_of_l)
    (hrows : ∀ row ∈ table, row.l = 0 ∧ row.v = a * row.n + b)
    (hdist : ∃ r1 ∈ table, ∃ r2 ∈ table, r1.n ≠ r2.n) :
    loadFreq table num_of_l =
      Except.ok (table, table.length,
        (List.range num_of_l).map fun (i : ℕ) =>
          (table.filter fun row => rint row.l = (i : ℤ)).length,
        a) := by
  have hret : retained table num_of_l = table := by
    apply List.filter_eq_self.mpr
    intro row hrow
    have h0 : row.l = 0 := (hrows row hrow).1
    have hcast : (1 : ℚ) ≤ (num_of_l : ℚ) := by exact_mod_cast hl
    simp only [h0, decide_eq_true_eq]
    linarith
  have hrad : radial table num_of_l = table := by
    unfold radial
    rw [hret]
    apply List.filter_eq_self.mpr
    intro row hrow
    simp only [(hrows row hrow).1, decide_eq_true_eq]
    norm_num
  have hys : table.map Row.v = (table.map Row.n).map fun x => a * x + b := by
    rw [List.map_map]
    exact List.map_congr_left fun row hrow => (hrows row hrow).2
  obtain ⟨r1, hr1, r2, hr2, hne⟩ := hdist
  have hden : 0 < olsDen (table.map Row.n) :=
    olsDen_pos _ r1.n r2.n (List.mem_map_of_mem Row.n hr1)
      (List.mem_map_of_mem Row.n hr2) hne
  unfold loadFreq
  rw [if_neg (by omega : ¬ table.length ≤ 1), hrad, hys,
    polyfit1_full_rank _ _ hden, olsSlope_affine _ _ _ (ne_of_gt hden), hret]

/-- A three-row purely radial table with the exact law `v = 50·n + 1000`. -/
def tblLinear : List Row :=
  [⟨0, 0, 1000, 1⟩, ⟨0, 1, 1050, 1⟩, ⟨0, 2, 1100, 1⟩]

/-- Evaluation of C4 at the concrete linear table: the fitted slope is
exactly 50. -/
theorem loadFreq_delta_nu_linear_law_w :
    loadFreq tblLinear 1 =
      Except.ok (tblLinear, tblLinear.length,
        (List.range 1).map fun (i : ℕ) =>
          (tblLinear.filter fun row => rint row.l = (i : ℤ)).length,
        (50 : ℚ)) :=
  loadFreq_delta_nu_linear_law tblLinear 1 50 1000
    (by norm_num [tblLinear]) le_rfl
    (by intro row hrow
        fin_cases hrow <;> norm_num)
    ⟨⟨0, 0, 1000, 1⟩, by norm_num [tblLinear],
     ⟨0, 1, 1050, 1⟩, by norm_num [tblLinear], by norm_num⟩

theorem rint_natCast (k : ℕ) : rint (k : ℚ) = (k : ℤ) := by
  unfold rint
  rw [Int.floor_natCast]
  norm_num

theorem sum_range_indicator (m k : ℕ) (hk : k < m) :
    ((List.range m).map fun (i : ℕ) => if (k : ℤ) = (i : ℤ) then 1 else 0).sum
      = 1 := by
  induction m with
  | zero => omega
  | succ m ih =>
    rw [List.range_succ, List.map_append, List.sum_append]
    by_cases hkm : k = m
    · have hzero : ((List.range m).map fun (i : ℕ) =>
          if (k : ℤ) = (i : ℤ) then 1 else 0).sum = 0 := by
        apply List.sum_eq_zero
        intro q hq
        obtain ⟨i, hi, rfl⟩ := List.mem_map.mp hq
        have hi2 : i < m := List.mem_range.mp hi
        have hne : (k : ℤ) ≠ (i : ℤ) := by omega
        simp [hne]
      have heq : (k : ℤ) = (m : ℤ) := by omega
      rw [hzero]
      simp [heq]
    · have hk2 : k < m := by omega
      rw [ih hk2]
      simp [hkm]

theorem counts_partition (rows : List Row) (m : ℕ)
    (h : ∀ row ∈ rows, ∃ k : ℕ, k < m ∧ rint row.l = (k : ℤ)) :
    ((List.range m).map fun (i : ℕ) =>
        (rows.filter fun row => rint row.l = (i : ℤ)).length).sum
      = rows.length := by
  induction rows with
  | nil => simp
  | cons row rows ih =>
    obtain ⟨k, hk, hrk⟩ := h row (List.mem_cons_self row rows)
    have hrest : ∀ t ∈ rows, ∃ k : ℕ, k < m ∧ rint t.l = (k : ℤ) :=
      fun t ht => h t (List.mem_cons_of_mem _ ht)
    have hstep : ∀ i : ℕ,
        ((row :: rows).filter fun t => rint t.l = (i : ℤ)).length
          = (rows.filter fun t => rint t.l = (i : ℤ)).length
            + (if rint row.l = (i : ℤ) then 1 else 0) := by
      intro i
      by_cases hc : rint row.l = (i : ℤ)
      · simp [List.filter_cons, hc, Nat.add_comm]
      · simp [List.filter_cons, hc]
    have hmap : ((List.range m).map fun (i : ℕ) =>
        ((row :: rows).filter fun t => rint t.l = (i : ℤ)).length)
        = (List.range m).map fun (i : ℕ) =>
            (rows.filter fun t => rint t.l = (i : ℤ)).length
              + (if rint row.l = (i : ℤ) then 1 else 0) :=
      List.map_congr_left fun i _ => hstep i
    rw [hmap, List.sum_map_add, ih hrest]
    simp only [hrk]
    rw [sum_range_indicator m k hk, List.length_cons]

/-- A two-row table whose degrees are the non-integer value −3/4: every row
is retained (for `num_of_l = 1`) but rounds to −1, outside every count bin. -/
def tblHalfDegree : List Row := [⟨-3/4, 0, 100, 1⟩, ⟨-3/4, 1, 200, 1⟩]

/-- C10: whenever `loadFreq` returns on a table whose degree column holds
exact integers in `0..num_of_l−1`, the per-degree counts sum to the
returned `num_of_mode`; and the two can differ without that precondition —
concretely, for the retained-but-unbinned table `tblHalfDegree` the counts
sum to 0 while `num_of_mode = 2`. -/
theorem loadFreq_counts_sum :
    (∀ (table : List Row) (num_of_l : ℕ) (r : List Row × ℕ × List ℕ × ℚ),
        loadFreq table num_of_l = Except.ok r →
        (∀ row ∈ table, ∃ k : Fin num_of_l, row.l = ((k : ℕ) : ℚ)) →
        r.2.2.1.sum = r.2.1) ∧
    (∃ r : List Row × ℕ × List ℕ × ℚ,
        loadFreq tblHalfDegree 1 = Except.ok r ∧ r.2.2.1.sum ≠ r.2.1) := by
  constructor
  · intro table num_of_l r h hint
    unfold loadFreq at h
    split at h
    · exact absurd h (by simp)
    · split at h
      · exact absurd h (by simp)
      · obtain rfl := (Except.ok.injEq _ _).mp h
        apply counts_partition
        intro row hrow
        have hrow2 : row ∈ table.filter
            (fun t => decide (t.l < (num_of_l : ℚ) - 1/2)) := hrow
        obtain ⟨k, hk⟩ := hint row (List.mem_of_mem_filter hrow2)
        exact ⟨(k : ℕ), k.isLt, by rw [hk, rint_natCast]⟩
  · refine ⟨(tblHalfDegree, 2, [0], (100 : ℚ)), ?_, by norm_num⟩
    have hfl : ⌊(-(3/4) : ℚ)⌋ = -1 := by
      rw [Int.floor_eq_iff]
      norm_num
    have hfr : Int.fract (-(3/4) : ℚ) = 1/4 := by
      unfold Int.fract
      rw [hfl]
      norm_num
    unfold loadFreq radial retained
    norm_num [polyfit1, tblHalfDegree, olsSlope, olsDen, dot, rint,
      hfl, hfr, List.filter, List.range_succ]

/-- Evaluation of C10 on the 5/3/0 integer-degree table: the counts
`[5, 3, 0]` sum to the mode count 8. -/
theorem loadFreq_counts_sum_w : ([5, 3, 0] : List ℕ).sum = 8 :=
  loadFreq_counts_sum.1 tbl53 3 (tbl53, 8, [5, 3, 0], (100 : ℚ))
    (by unfold loadFreq radial retained
        norm_num [polyfit1, tbl53, olsSlope, olsDen, dot, rint,
          List.filter, List.range_succ])
    (by intro row hrow
        fin_cases hrow
        · exact ⟨⟨0, by omega⟩, by norm_num⟩
        · exact ⟨⟨0, by omega⟩, by norm_num⟩
        · exact ⟨⟨0, by omega⟩, by norm_num⟩
        · exact ⟨⟨0, by omega⟩, by norm_num⟩
        · exact ⟨⟨0, by omega⟩, by norm_num⟩
        · exact ⟨⟨1, by omega⟩, by norm_num⟩
        · exact ⟨⟨1, by omega⟩, by norm_num⟩
        · exact ⟨⟨1, by omega⟩, by norm_num⟩)

/-- The one exception `loadFit` itself can raise: `h5py`'s `KeyError` for a
missing key path, carrying the key. -/
inductive Err where
  | keyError : String → Err
  deriving DecidableEq, Repr

/-- One step of the `with` block's body: reading `data['k'][()]` either
yields the stored value or raises `KeyError`; the monad also records, in
order, every key path accessed. -/
structure ReadM (β : Type) where
  keysRead : List String
  result : Except Err β

def ReadM.pure {β : Type} (x : β) : ReadM β := ⟨[], Except.ok x⟩

def ReadM.bind {β γ : Type} (m : ReadM β) (f : β → ReadM γ) : ReadM γ :=
  match m.result with
  | Except.ok x => ⟨m.keysRead ++ (f x).keysRead, (f x).result⟩
  | Except.error e => ⟨m.keysRead, Except.error e⟩

/-- The flattened HDF5 container: an association list from key paths such
as "header/method" to stored values (first binding wins, as key paths in an
HDF5 file are unique). The value type `α` is arbitrary: `loadFit` trusts
the stored types and shapes. -/
def lookup {α : Type} (data : List (String × α)) (k : String) : Option α :=
  (data.find? fun p => p.1 == k).map Prod.snd

/-- `x = data['k'][()]` for a required key: raises `KeyError` when absent. -/
def readReq {α : Type} (data : List (String × α)) (k : String) : ReadM α :=
  ⟨[k], match lookup data k with
        | some v => Except.ok v
        | none => Except.error (Err.keyError k)⟩

/-- `try: x = data['k'][()] except KeyError: x = None` for an optional key:
the access is attempted and absence is resolved to `none`. -/
def tryRead {α : Type} (data : List (String × α)) (k : String) :
    ReadM (Option α) :=
  ⟨[k], Except.ok (lookup data k)⟩

/-- The `header` output tuple `(method, regu_param, tol_grad, n_guess,
tauhe, dtauhe, taucz, dtaucz)`, with the four optional glitch parameters. -/
structure Header (α : Type) where
  method : α
  regu_param : α
  tol_grad : α
  n_guess : α
  tauhe : Option α
  dtauhe : Option α
  taucz : Option α
  dtaucz : Option α
  deriving DecidableEq, Repr

/-- The `obsData` output tuple
`(freq, num_of_n, delta_nu, vmin, vmax, freqDif2, icov)`. -/
structure ObsData (α : Type) where
  freq : α
  num_of_n : α
  delta_nu : α
  vmin : α
  vmax : α
  freqDif2 : Option α
  icov : Option α
  deriving DecidableEq, Repr

/-- The `fitData` output tuple `(param, chi2, reg, ier)`. -/
structure FitData (α : Type) where
  param : α
  chi2 : α
  reg : α
  ier : α
  deriving DecidableEq, Repr

/-- The `rtoData` output tuple `(rtype, ratio)`. -/
structure RtoData (α : Type) where
  rtype : Option α
  ratio : Option α
  deriving DecidableEq, Repr

/-- The four grouped tuples `loadFit` returns. -/
abbrev FitBundle (α : Type) :=
  Header α × ObsData α × FitData α × RtoData α

/-- The body of `loadFit`'s `with` block, reading every field in source
order: four required header scalars, four optional glitch parameters, five
required observation fields, two optional ones, four required fit fields,
the optional `rto/rtype`, and — only when `rtype` came back non-null — the
required read of `rto/ratio`. -/
def loadFitM {α : Type} (data : List (String × α)) : ReadM (FitBundle α) :=
  ReadM.bind (readReq data "header/method") fun method =>
  ReadM.bind (readReq data "header/regu_param") fun regu_param =>
  ReadM.bind (readReq data "header/tol_grad") fun tol_grad =>
  ReadM.bind (readReq data "header/n_guess") fun n_guess =>
  ReadM.bind (tryRead data "header/tauhe") fun tauhe =>
  ReadM.bind (tryRead data "header/dtauhe") fun dtauhe =>
  ReadM.bind (tryRead data "header/taucz") fun taucz =>
  ReadM.bind (tryRead data "header/dtaucz") fun dtaucz =>
  ReadM.bind (readReq data "obs/freq") fun freq =>
  ReadM.bind (readReq data "obs/num_of_n") fun num_of_n =>
  ReadM.bind (readReq data "obs/delta_nu") fun delta_nu =>
  ReadM.bind (readReq data "obs/vmin") fun vmin =>
  ReadM.bind (readReq data "obs/vmax") fun vmax =>
  ReadM.bind (tryRead data "obs/freqDif2") fun freqDif2 =>
  ReadM.bind (tryRead data "obs/icov") fun icov =>
  ReadM.bind (readReq data "fit/param") fun param =>
  ReadM.bind (readReq data "fit/chi2") fun chi2 =>
  ReadM.bind (readReq data "fit/reg") fun reg =>
  ReadM.bind (readReq data "fit/ier") fun ier =>
  ReadM.bind (tryRead data "rto/rtype") fun rtype =>
  ReadM.bind (match rtype with
              | some _ =>
                  ReadM.bind (readReq data "rto/ratio") fun u =>
                  ReadM.pure (some u)
              | none => ReadM.pure none) fun ratio =>
  ReadM.pure
    (⟨method, regu_param, tol_grad, n_guess, tauhe, dtauhe, taucz, dtaucz⟩,
     ⟨freq, num_of_n, delta_nu, vmin, vmax, freqDif2, icov⟩,
     ⟨param, chi2, reg, ier⟩,
     ⟨rtype, ratio⟩)

/-- The observable file-handle events of one `loadFit` call. -/
inductive Event where
  | openRO : Event
  | readKey : String → Event
  | close : Event
  deriving DecidableEq, Repr

/-- `with h5py.File(filename, 'r') as data:` — the handle is opened
read-only before the body runs and closed when control leaves the block on
any path, whether the body's result is a value or an exception. -/
def withFile {β : Type} (body : ReadM β) : List Event × Except Err β :=
  (Event.openRO :: (body.keysRead.map Event.readKey ++ [Event.close]),
   body.result)

/-- `loadFit` of `loadData.py`: the event trace of the scoped file handle
together with the grouped result (or the propagated `KeyError`). -/
def loadFit {α : Type} (data : List (String × α)) :
    List Event × Except Err (FitBundle α) :=
  withFile (loadFitM data)

/-- The thirteen key paths `loadFit` reads without a `try` guard. -/
def requiredKeys : List String :=
  ["header/method", "header/regu_param", "header/tol_grad", "header/n_guess",
   "obs/freq", "obs/num_of_n", "obs/delta_nu", "obs/vmin", "obs/vmax",
   "fit/param", "fit/chi2", "fit/reg", "fit/ier"]

theorem ReadM.result_bind {β γ : Type} (m : ReadM β) (f : β → ReadM γ) :
    (ReadM.bind m f).result =
      match m.result with
      | Except.ok x => (f x).result
      | Except.error e => Except.error e := by
  cases hm : m.result with
  | ok x => simp [ReadM.bind, hm]
  | error e => simp [ReadM.bind, hm]

theorem result_bind_eq_ok {β γ : Type} {m : ReadM β} {f : β → ReadM γ}
    {r : γ} (h : (ReadM.bind m f).result = Except.ok r) :
    ∃ x, m.result = Except.ok x ∧ (f x).result = Except.ok r := by
  cases hm : m.result with
  | ok x =>
    rw [ReadM.result_bind, hm] at h
    exact ⟨x, rfl, h⟩
  | error e =>
    rw [ReadM.result_bind, hm] at h
    simp at h

theorem readReq_ok {α : Type} {data : List (String × α)} {k : String} {v : α}
    (h : (readReq data k).result = Except.ok v) : lookup data k = some v := by
  have h2 : (match lookup data k with
      | some v => Except.ok v
      | none => (Except.error (Err.keyError k) : Except Err α)) =
      Except.ok v := h
  cases hl : lookup data k with
  | none => rw [hl] at h2; simp at h2
  | some u => rw [hl] at h2; simpa using h2

theorem tryRead_ok {α : Type} {data : List (String × α)} {k : String}
    {x : Option α} (h : (tryRead data k).result = Except.ok x) :
    x = lookup data k := by
  have h2 : (Except.ok (lookup data k) : Except Err (Option α)) =
      Except.ok x := h
  simpa using h2.symm

theorem loadFitM_ok_spec {α : Type} (data : List (String × α))
    (r : FitBundle α) (hok : (loadFitM data).result = Except.ok r) :
    (∀ k ∈ requiredKeys, (lookup data k).isSome) ∧
    r.1.tauhe = lookup data "header/tauhe" ∧
    r.1.dtauhe = lookup data "header/dtauhe" ∧
    r.1.taucz = lookup data "header/taucz" ∧
    r.1.dtaucz = lookup data "header/dtaucz" ∧
    r.2.1.freqDif2 = lookup data "obs/freqDif2" ∧
    r.2.1.icov = lookup data "obs/icov" ∧
    r.2.2.2.rtype = lookup data "rto/rtype" ∧
    (r.2.2.2.ratio.isSome ↔ (lookup data "rto/rtype").isSome) := by
  unfold loadFitM at hok
  obtain ⟨method, hb1, hok⟩ := result_bind_eq_ok hok
  have h1 := readReq_ok hb1
  obtain ⟨regu_param, hb2, hok⟩ := result_bind_eq_ok hok
  have h2 := readReq_ok hb2
  obtain ⟨tol_grad, hb3, hok⟩ := result_bind_eq_ok hok
  have h3 := readReq_ok hb3
  obtain ⟨n_guess, hb4, hok⟩ := result_bind_eq_ok hok
  have h4 := readReq_ok hb4
  obtain ⟨tauhe, hb5, hok⟩ := result_bind_eq_ok hok
  have h5 := tryRead_ok hb5
  obtain ⟨dtauhe, hb6, hok⟩ := result_bind_eq_ok hok
  have h6 := tryRead_ok hb6
  obtain ⟨taucz, hb7, hok⟩ := result_bind_eq_ok hok
  have h7 := tryRead_ok hb7
  obtain ⟨dtaucz, hb8, hok⟩ := result_bind_eq_ok hok
  have h8 := tryRead_ok hb8
  obtain ⟨freq, hb9, hok⟩ := result_bind_eq_ok hok
  have h9 := readReq_ok hb9
  obtain ⟨num_of_n, hb10, hok⟩ := result_bind_eq_ok hok
  have h10 := readReq_ok hb10
  obtain ⟨delta_nu, hb11, hok⟩ := result_bind_eq_ok hok
  have h11 := readReq_ok hb11
  obtain ⟨vmin, hb12, hok⟩ := result_bind_eq_ok hok
  have h12 := readReq_ok hb12
  obtain ⟨vmax, hb13, hok⟩ := result_bind_eq_ok hok
  have h13 := readReq_ok hb13
  obtain ⟨freqDif2, hb14, hok⟩ := result_bind_eq_ok hok
  have h14 := tryRead_ok hb14
  obtain ⟨icov, hb15, hok⟩ := result_bind_eq_ok hok
  have h15 := tryRead_ok hb15
  obtain ⟨param, hb16, hok⟩ := result_bind_eq_ok hok
  have h16 := readReq_ok hb16
  obtain ⟨chi2, hb17, hok⟩ := result_bind_eq_ok hok
  have h17 := readReq_ok hb17
  obtain ⟨reg, hb18, hok⟩ := result_bind_eq_ok hok
  have h18 := readReq_ok hb18
  obtain ⟨ier, hb19, hok⟩ := result_bind_eq_ok hok
  have h19 := readReq_ok hb19
  obtain ⟨rtype, hb20, hok⟩ := result_bind_eq_ok hok
  have h20 := tryRead_ok hb20
  obtain ⟨ratio, hb21, hok⟩ := result_bind_eq_ok hok
  have hr : (⟨method, regu_param, tol_grad, n_guess, tauhe, dtauhe, taucz,
      dtaucz⟩, ⟨freq, num_of_n, delta_nu, vmin, vmax, freqDif2, icov⟩,
      ⟨param, chi2, reg, ier⟩,
      (⟨rtype, ratio⟩ : RtoData α)) = r := by simpa [ReadM.pure] using hok
  subst hr
  have hkeys : ∀ k ∈ requiredKeys, (lookup data k).isSome := by
    intro k hk
    fin_cases hk <;>
      simp [h1, h2, h3, h4, h9, h10, h11, h12, h13, h16, h17, h18, h19]
  cases rtype with
  | none =>
    have hrat : ratio = none := by simpa [ReadM.pure] using hb21.symm
    subst hrat
    exact ⟨hkeys, h5, h6, h7, h8, h14, h15, h20, by simp [← h20]⟩
  | some t =>
    obtain ⟨u, hbu, hpu⟩ := result_bind_eq_ok hb21
    have hrat : ratio = some u := by simpa [ReadM.pure] using hpu.symm
    subst hrat
    exact ⟨hkeys, h5, h6, h7, h8, h14, h15, h20, by simp [← h20]⟩

/-- C2: whenever `loadFit` returns, the ratio field is populated exactly
when the rtype field is, and an absent `rto/rtype` key forces ratio to the
absent marker regardless of whether a `rto/ratio` key exists. -/
theorem loadFit_ratio_iff_rtype {α : Type} (data : List (String × α))
    (r : FitBundle α) (h : (loadFit data).2 = Except.ok r) :
    (r.2.2.2.ratio.isSome ↔ r.2.2.2.rtype.isSome) ∧
    (lookup data "rto/rtype" = none → r.2.2.2.ratio = none) := by
  obtain ⟨-, -, -, -, -, -, -, hrt, hiff⟩ := loadFitM_ok_spec data r h
  constructor
  · rw [hrt]
    exact hiff
  · intro hnone
    rw [hnone] at hiff
    simpa using hiff

/-- A container holding every required key and a `rto/ratio` key, but no
optional key at all — in particular no `header/tauhe` and no `rto/rtype`. -/
def h5NoRtype : List (String × ℕ) :=
  [("header/method", 0), ("header/regu_param", 1), ("header/tol_grad", 2),
   ("header/n_guess", 3), ("obs/freq", 4), ("obs/num_of_n", 5),
   ("obs/delta_nu", 6), ("obs/vmin", 7), ("obs/vmax", 8),
   ("fit/param", 9), ("fit/chi2", 10), ("fit/reg", 11), ("fit/ier", 12),
   ("rto/ratio", 13)]

/-- The bundle `loadFit` returns on `h5NoRtype`: every optional field is
the absent marker — including ratio, although a `rto/ratio` key exists. -/
def bundleNoRtype : FitBundle ℕ :=
  (⟨0, 1, 2, 3, none, none, none, none⟩, ⟨4, 5, 6, 7, 8, none, none⟩,
   ⟨9, 10, 11, 12⟩, ⟨none, none⟩)

/-- Evaluation of C2 on `h5NoRtype`: rtype is absent, so ratio is the
absent marker even though the container physically holds a ratio key. -/
theorem loadFit_ratio_iff_rtype_w :
    (bundleNoRtype.2.2.2.ratio.isSome ↔ bundleNoRtype.2.2.2.rtype.isSome) ∧
    (lookup h5NoRtype "rto/rtype" = none →
      bundleNoRtype.2.2.2.ratio = none) :=
  loadFit_ratio_iff_rtype h5NoRtype bundleNoRtype (by rfl)

/-- C6: a container missing any one of the thirteen required keys makes
`loadFit` fail with a missing-key error: the result is a `KeyError` for
some key, never a partial tuple. -/
theorem loadFit_missing_required_key {α : Type} (data : List (String × α))
    (k : String) (hk : k ∈ requiredKeys) (habs : lookup data k = none) :
    ∃ k2, (loadFit data).2 = Except.error (Err.keyError k2) := by
  cases hres : (loadFit data).2 with
  | error e =>
    cases e with
    | keyError k2 => exact ⟨k2, rfl⟩
  | ok r =>
    have hsome := (loadFitM_ok_spec data r hres).1 k hk
    rw [habs] at hsome
    simp at hsome

/-- `h5NoRtype` with its `obs/vmin` entry removed. -/
def h5MissingVmin : List (String × ℕ) :=
  [("header/method", 0), ("header/regu_param", 1), ("header/tol_grad", 2),
   ("header/n_guess", 3), ("obs/freq", 4), ("obs/num_of_n", 5),
   ("obs/delta_nu", 6), ("obs/vmax", 8),
   ("fit/param", 9), ("fit/chi2", 10), ("fit/reg", 11), ("fit/ier", 12),
   ("rto/ratio", 13)]

/-- Evaluation of C6 on a container missing `obs/vmin`. -/
theorem loadFit_missing_required_key_w :
    ∃ k2, (loadFit h5MissingVmin).2 = Except.error (Err.keyError k2) :=
  loadFit_missing_required_key h5MissingVmin "obs/vmin"
    (by simp [requiredKeys]) (by rfl)

/-- C7: when every required key is present (and `rto/ratio` is present
whenever `rto/rtype` is), `loadFit` returns successfully, with every
optional output field equal to the container's lookup of its key — the
absent marker when the key is absent — so a missing optional key never
raises and never disturbs the remaining fields. -/
theorem loadFit_optional_absent_ok {α : Type} (data : List (String × α))
    (hreq : ∀ k ∈ requiredKeys, (lookup data k).isSome)
    (hrt : (lookup data "rto/rtype").isSome →
      (lookup data "rto/ratio").isSome) :
    ∃ r : FitBundle α, (loadFit data).2 = Except.ok r ∧
      r.1.tauhe = lookup data "header/tauhe" ∧
      r.1.dtauhe = lookup data "header/dtauhe" ∧
      r.1.taucz = lookup data "header/taucz" ∧
      r.1.dtaucz = lookup data "header/dtaucz" ∧
      r.2.1.freqDif2 = lookup data "obs/freqDif2" ∧
      r.2.1.icov = lookup data "obs/icov" ∧
      r.2.2.2.rtype = lookup data "rto/rtype" := by
  obtain ⟨v1, h1⟩ := Option.isSome_iff_exists.mp
    (hreq "header/method" (by simp [requiredKeys]))
  obtain ⟨v2, h2⟩ := Option.isSome_iff_exists.mp
    (hreq "header/regu_param" (by simp [requiredKeys]))
  obtain ⟨v3, h3⟩ := Option.isSome_iff_exists.mp
    (hreq "header/tol_grad" (by simp [requiredKeys]))
  obtain ⟨v4, h4⟩ := Option.isSome_iff_exists.mp
    (hreq "header/n_guess" (by simp [requiredKeys]))
  obtain ⟨v5, h5⟩ := Option.isSome_iff_exists.mp
    (hreq "obs/freq" (by simp [requiredKeys]))
  obtain ⟨v6, h6⟩ := Option.isSome_iff_exists.mp
    (hreq "obs/num_of_n" (by simp [requiredKeys]))
  obtain ⟨v7, h7⟩ := Option.isSome_iff_exists.mp
    (hreq "obs/delta_nu" (by simp [requiredKeys]))
  obtain ⟨v8, h8⟩ := Option.isSome_iff_exists.mp
    (hreq "obs/vmin" (by simp [requiredKeys]))
  obtain ⟨v9, h9⟩ := Option.isSome_iff_exists.mp
    (hreq "obs/vmax" (by simp [requiredKeys]))
  obtain ⟨v10, h10⟩ := Option.isSome_iff_exists.mp
    (hreq "fit/param" (by simp [requiredKeys]))
  obtain ⟨v11, h11⟩ := Option.isSome_iff_exists.mp
    (hreq "fit/chi2" (by simp [requiredKeys]))
  obtain ⟨v12, h12⟩ := Option.isSome_iff_exists.mp
    (hreq "fit/reg" (by simp [requiredKeys]))
  obtain ⟨v13, h13⟩ := Option.isSome_iff_exists.mp
    (hreq "fit/ier" (by simp [requiredKeys]))
  cases h20 : lookup data "rto/rtype" with
  | none =>
    refine ⟨(⟨v1, v2, v3, v4, lookup data "header/tauhe",
        lookup data "header/dtauhe", lookup data "header/taucz",
        lookup data "header/dtaucz"⟩,
        ⟨v5, v6, v7, v8, v9, lookup data "obs/freqDif2",
          lookup data "obs/icov"⟩,
        ⟨v10, v11, v12, v13⟩, ⟨none, none⟩),
      ?_, rfl, rfl, rfl, rfl, rfl, rfl, rfl⟩
    show (loadFitM data).result = _
    simp only [loadFitM, ReadM.result_bind, readReq, tryRead, ReadM.pure,
      h1, h2, h3, h4, h5, h6, h7, h8, h9, h10, h11, h12, h13, h20]
  | some t =>
    obtain ⟨u, h21⟩ := Option.isSome_iff_exists.mp (hrt (by simp [h20]))
    refine ⟨(⟨v1, v2, v3, v4, lookup data "header/tauhe",
        lookup data "header/dtauhe", lookup data "header/taucz",
        lookup data "header/dtaucz"⟩,
        ⟨v5, v6, v7, v8, v9, lookup data "obs/freqDif2",
          lookup data "obs/icov"⟩,
        ⟨v10, v11, v12, v13⟩, ⟨some t, some u⟩),
      ?_, rfl, rfl, rfl, rfl, rfl, rfl, rfl⟩
    show (loadFitM data).result = _
    simp only [loadFitM, ReadM.result_bind, readReq, tryRead, ReadM.pure,
      h1, h2, h3, h4, h5, h6, h7, h8, h9, h10, h11, h12, h13, h20, h21]

/-- Evaluation of C7 on `h5NoRtype`, which omits `header/tauhe` (and every
other optional key): the load succeeds and the tauhe field is the absent
marker, without raising. -/
theorem loadFit_optional_absent_ok_w :
    ∃ r : FitBundle ℕ, (loadFit h5NoRtype).2 = Except.ok r ∧
      r.1.tauhe = lookup h5NoRtype "header/tauhe" ∧
      r.1.dtauhe = lookup h5NoRtype "header/dtauhe" ∧
      r.1.taucz = lookup h5NoRtype "header/taucz" ∧
      r.1.dtaucz = lookup h5NoRtype "header/dtaucz" ∧
      r.2.1.freqDif2 = lookup h5NoRtype "obs/freqDif2" ∧
      r.2.1.icov = lookup h5NoRtype "obs/icov" ∧
      r.2.2.2.rtype = lookup h5NoRtype "rto/rtype" :=
  loadFit_optional_absent_ok h5NoRtype
    (by intro k hk
        fin_cases hk <;> rfl)
    (fun h => nomatch h)

theorem count_map_readKey (ks : List String) (e : Event)
    (he : ∀ s, e ≠ Event.readKey s) :
    (ks.map Event.readKey).count e = 0 := by
  rw [List.count_eq_zero]
  intro hmem
  obtain ⟨s, -, hs⟩ := List.mem_map.mp hmem
  exact he s hs.symm

/-- C8: on every container, the event trace of a `loadFit` call opens the
handle read-only first, closes it last, and does each exactly once —
whether the body returned a bundle or raised on a missing required key. -/
theorem loadFit_handle_scoped {α : Type} (data : List (String × α)) :
    (loadFit data).1.head? = some Event.openRO ∧
    (loadFit data).1.getLast? = some Event.close ∧
    (loadFit data).1.count Event.openRO = 1 ∧
    (loadFit data).1.count Event.close = 1 := by
  have htr : (loadFit data).1 =
      Event.openRO :: ((loadFitM data).keysRead.map Event.readKey
        ++ [Event.close]) := rfl
  refine ⟨rfl, ?_, ?_, ?_⟩
  · rw [htr, ← List.cons_append, List.getLast?_concat]
  · rw [htr, List.count_cons_self, List.count_append,
      count_map_readKey _ _ (fun s h => Event.noConfusion h)]
    decide
  · rw [htr, List.count_cons_of_ne (fun h => Event.noConfusion h),
      List.count_append,
      count_map_readKey _ _ (fun s h => Event.noConfusion h)]
    decide
